import Mathlib

/-!
# Vulkan2D renderer frame/target protocol — verification development

A shallow embedding of the frame lifecycle, render-target switching,
configuration and colour-mod interfaces of the VK2D renderer
(src/VK2D/Renderer.h).  The repository ships only the header: the struct
`VK2DRenderer`, the function declarations, and an in-depth doc comment
(Renderer.h lines 14–37) describing the draw/target protocol.  The
operational definitions below are therefore modelled from the spec and from
that header doc comment; each such definition says so in its doc comment.
Machine floats appear only in interfaces whose behavior is pure copying,
so components are modelled with exact integers.
-/

set_option autoImplicit false

namespace VK2D

/-- RGBA colour vector (`vec4` in the source).  The source stores four float
components; the colour-mod interface only copies components wholesale, so an
exact component type models it faithfully. -/
structure Vec4 where
  r : Int
  g : Int
  b : Int
  a : Int
deriving DecidableEq

/-- A render target: the `VK2D_TARGET_SCREEN` sentinel, or a target texture
identified by its handle (`VK2DTexture`). -/
inductive VK2DTarget where
  | screen : VK2DTarget
  | texture : Nat → VK2DTarget
deriving DecidableEq

/-- Modelled from the spec: `VK2DRendererConfig` (declared in `Structs.h`,
which is not under src/).  The spec's §3 data model lists
{present mode, MSAA level, multi-buffering depth, screen filter mode}. -/
structure VK2DRendererConfig where
  filterMode : Nat
  screenMode : Nat
  msaa : Nat
  bufferDepth : Nat
deriving DecidableEq

/-- One observable GPU-side event of the frame protocol, in the order it is
recorded into the frame's primary command buffer / presentation queue.
`execCmds` carries the ids of the secondary command buffers executed into the
currently open render pass. -/
inductive RenderEvent where
  | beginPass : VK2DTarget → RenderEvent
  | execCmds : List Nat → RenderEvent
  | endPass : RenderEvent
  | present : RenderEvent
deriving DecidableEq

/-- The renderer state (`struct VK2DRenderer`), restricted to the fields the
frame/target protocol reads and writes: active and pending configuration with
the reset flag (Renderer.h lines 46–48), the colour-blend modifier (line 50),
the frame counter (line 100), the draw accumulator with its `drawOffset`
cursor (header doc comment, lines 25–32), and the active target (line 114).
`deviceMaxMsaa` models the fixed capability the physical device reports;
`trace` is the accumulated list of observable GPU events. -/
structure VK2DRenderer where
  config : VK2DRendererConfig
  newConfig : VK2DRendererConfig
  resetSwapchain : Bool
  deviceMaxMsaa : Nat
  colourBlend : Vec4
  currentFrame : Nat
  draws : List Nat
  drawOffset : Nat
  target : VK2DTarget
  trace : List RenderEvent
deriving DecidableEq

/-- Modelled from the spec: capability fallback (§4.1, §6) — an unsupported
MSAA level "silently falls back to the closest supported value"; every level
up to the device maximum is supported, so the closest supported value for a
request above the maximum is the maximum itself. -/
def effectiveConfig (deviceMaxMsaa : Nat) (c : VK2DRendererConfig) : VK2DRendererConfig :=
  { c with msaa := min c.msaa deviceMaxMsaa }

/-- The renderer state right after initialization: the effective (degraded)
configuration is active, nothing pending, no frame started. -/
def initialRenderer (deviceMaxMsaa : Nat) (c : VK2DRendererConfig) : VK2DRenderer :=
  { config := effectiveConfig deviceMaxMsaa c
    newConfig := effectiveConfig deviceMaxMsaa c
    resetSwapchain := false
    deviceMaxMsaa := deviceMaxMsaa
    colourBlend := ⟨1, 1, 1, 1⟩
    currentFrame := 0
    draws := []
    drawOffset := 0
    target := VK2DTarget.screen
    trace := [] }

/-- Modelled from the spec: `vk2dRendererInit` (Renderer.h lines 137–159;
Renderer.c is not under src/).  A request that is not supported is never an
error — "the next best thing is used in its place" — so with a present device
capability the status is non-negative. -/
def vk2dRendererInit (deviceMaxMsaa : Nat) (config : VK2DRendererConfig) :
    Int × VK2DRenderer :=
  (0, initialRenderer deviceMaxMsaa config)

/-- `vk2dRendererGetConfig` (Renderer.h lines 174–181): returns the *actual*
active configuration, not the requested or pending one. -/
def vk2dRendererGetConfig (s : VK2DRenderer) : VK2DRendererConfig :=
  s.config

/-- Modelled from the spec: `vk2dRendererSetConfig` (Renderer.h lines 183–189;
Renderer.c is not under src/).  Stores the pending configuration in
`newConfig` and marks the swapchain for reset; the active `config` is not
touched until the reset takes effect at the end of the frame. -/
def vk2dRendererSetConfig (s : VK2DRenderer) (config : VK2DRendererConfig) : VK2DRenderer :=
  { s with newConfig := config, resetSwapchain := true }

/-- The secondary command buffers recorded since `drawOffset` — the pending
run that the next flush executes (header doc comment, lines 25 and 31). -/
def pendingRun (s : VK2DRenderer) : List Nat :=
  s.draws.drop s.drawOffset

/-- Modelled from the spec: `vk2dRendererSetTarget` (Renderer.h lines 210–214;
Renderer.c is not under src/).  Per the header doc comment (lines 23–28) and
spec §4.3: when the new target differs from the current one, the pending run
is executed into the open render pass, that pass is ended, a new pass bound to
the new target begins, and `drawOffset` advances to the accumulator's length
so none of the flushed buffers is ever executed twice.  A switch to the
already-active target does none of that. -/
def vk2dRendererSetTarget (s : VK2DRenderer) (target : VK2DTarget) : VK2DRenderer :=
  if target = s.target then s
  else
    { s with
      trace := s.trace ++
        [RenderEvent.execCmds (pendingRun s), RenderEvent.endPass, RenderEvent.beginPass target]
      drawOffset := s.draws.length
      target := target }

/-- Outcome of acquiring a swapchain image at the start of a frame. -/
inductive AcquireResult where
  | success : AcquireResult
  | outOfDate : AcquireResult
  | failure : AcquireResult
deriving DecidableEq

/-- Modelled from the spec: `vk2dRendererStartFrame` (Renderer.h lines
197–200; Renderer.c is not under src/).  `currentFrame` increments
unconditionally (spec §4.2).  On a successful acquisition the command pool for
the slot is reset (discarding the previous frame's secondary buffers), the
screen render pass begins, and `drawOffset` is zeroed; on an out-of-date or
failed acquisition a swapchain reset is scheduled and the frame's drawing is
aborted (no pass is opened). -/
def vk2dRendererStartFrame (s : VK2DRenderer) (acquire : AcquireResult) : VK2DRenderer :=
  let s1 : VK2DRenderer := { s with currentFrame := s.currentFrame + 1 }
  match acquire with
  | AcquireResult.success =>
      { s1 with
        draws := []
        drawOffset := 0
        target := VK2DTarget.screen
        trace := s1.trace ++ [RenderEvent.beginPass VK2DTarget.screen] }
  | _ => { s1 with resetSwapchain := true }

/-- Applies a pending configuration at the safe reset point (end of frame),
clamping it against device capabilities; spec §6 and Renderer.h lines 186–188
("vk2dRendererGetConfig will continue to return the same thing until this
configuration takes effect at the end of the frame"). -/
def applyPendingConfig (s : VK2DRenderer) : VK2DRenderer :=
  if s.resetSwapchain then
    { s with config := effectiveConfig s.deviceMaxMsaa s.newConfig, resetSwapchain := false }
  else s

/-- Modelled from the spec: `vk2dRendererEndFrame` (Renderer.h lines 202–204;
Renderer.c is not under src/).  Per the header doc comment (lines 29–33): the
pending run is executed into the current render pass, `drawOffset` is not
updated, the pass ends, and the screen is presented; then any pending
configuration reset takes effect. -/
def vk2dRendererEndFrame (s : VK2DRenderer) : VK2DRenderer :=
  applyPendingConfig
    { s with
      trace := s.trace ++
        [RenderEvent.execCmds (pendingRun s), RenderEvent.endPass, RenderEvent.present] }

/-- `vk2dRendererSetColourMod` (Renderer.h lines 216–218): sets the colour
modifier `colourBlend` (line 50) and nothing else. -/
def vk2dRendererSetColourMod (s : VK2DRenderer) (mod : Vec4) : VK2DRenderer :=
  { s with colourBlend := mod }

/-- `vk2dRendererGetColourMod` (Renderer.h lines 220–224): copies the current
colour modifier into the destination vector. -/
def vk2dRendererGetColourMod (s : VK2DRenderer) : Vec4 :=
  s.colourBlend

/-- A caller action between `startFrame` and `endFrame`: record one secondary
command buffer (a draw call) or switch the render target. -/
inductive FrameCmd where
  | draw : Nat → FrameCmd
  | setTarget : VK2DTarget → FrameCmd
deriving DecidableEq

/-- Recording a draw appends its secondary command buffer to the draw
accumulator (`draws`, header doc comment line 25). -/
def recordDraw (s : VK2DRenderer) (id : Nat) : VK2DRenderer :=
  { s with draws := s.draws ++ [id] }

/-- One caller action applied to the renderer state. -/
def stepCmd (s : VK2DRenderer) : FrameCmd → VK2DRenderer
  | FrameCmd.draw id => recordDraw s id
  | FrameCmd.setTarget t => vk2dRendererSetTarget s t

/-- The body of a frame: a sequence of caller actions. -/
def runBody (s : VK2DRenderer) (cmds : List FrameCmd) : VK2DRenderer :=
  cmds.foldl stepCmd s

/-- The renderer state mid-frame, after `startFrame` and a body of actions. -/
def midState (s : VK2DRenderer) (cmds : List FrameCmd) : VK2DRenderer :=
  runBody (vk2dRendererStartFrame s AcquireResult.success) cmds

/-- One whole frame: `startFrame`, the body, `endFrame`. -/
def runFrame (s : VK2DRenderer) (cmds : List FrameCmd) : VK2DRenderer :=
  vk2dRendererEndFrame (midState s cmds)

/-- A session: a sequence of whole frames. -/
def runFrames (s : VK2DRenderer) (frames : List (List FrameCmd)) : VK2DRenderer :=
  frames.foldl runFrame s

/-- The secondary command buffers a trace executes, flattened in order. -/
def executedCmds : List RenderEvent → List Nat
  | [] => []
  | RenderEvent.execCmds cs :: rest => cs ++ executedCmds rest
  | _ :: rest => executedCmds rest

/-- The secondary command buffers a frame body records, in recording order. -/
def recordedDraws (cmds : List FrameCmd) : List Nat :=
  cmds.filterMap fun c =>
    match c with
    | FrameCmd.draw id => some id
    | FrameCmd.setTarget _ => none

/-- Render-pass discipline checker: starting with `d` passes open (0 or 1),
scans the trace; a pass may begin only when none is open, commands execute and
a pass ends only inside an open pass, and presentation happens only with every
opened pass already ended.  Returns the final number of open passes, or `none`
on any violation. -/
def runDepth : Nat → List RenderEvent → Option Nat
  | d, [] => some d
  | d, RenderEvent.beginPass _ :: rest => if d = 0 then runDepth 1 rest else none
  | d, RenderEvent.execCmds _ :: rest => if d = 1 then runDepth d rest else none
  | d, RenderEvent.endPass :: rest => if d = 1 then runDepth 0 rest else none
  | d, RenderEvent.present :: rest => if d = 0 then runDepth d rest else none

/-! ## Supporting lemmas about traces and the frame invariant -/

theorem executedCmds_append (l1 l2 : List RenderEvent) :
    executedCmds (l1 ++ l2) = executedCmds l1 ++ executedCmds l2 := by
  induction l1 with
  | nil => simp [executedCmds]
  | cons e rest ih => cases e <;> simp [executedCmds, ih]

theorem runDepth_append (l1 l2 : List RenderEvent) :
    ∀ d : Nat, runDepth d (l1 ++ l2) = (runDepth d l1).bind fun d2 => runDepth d2 l2 := by
  induction l1 with
  | nil => intro d; simp [runDepth]
  | cons e rest ih =>
    intro d
    cases e <;> simp only [List.cons_append, runDepth] <;> split <;> simp [ih]

theorem recordedDraws_cons_draw (id : Nat) (rest : List FrameCmd) :
    recordedDraws (FrameCmd.draw id :: rest) = id :: recordedDraws rest := by
  simp [recordedDraws]

theorem recordedDraws_cons_setTarget (t : VK2DTarget) (rest : List FrameCmd) :
    recordedDraws (FrameCmd.setTarget t :: rest) = recordedDraws rest := by
  simp [recordedDraws]

theorem stepCmd_frame_fields (s : VK2DRenderer) (c : FrameCmd) :
    (stepCmd s c).config = s.config ∧ (stepCmd s c).newConfig = s.newConfig ∧
    (stepCmd s c).resetSwapchain = s.resetSwapchain ∧
    (stepCmd s c).deviceMaxMsaa = s.deviceMaxMsaa ∧
    (stepCmd s c).currentFrame = s.currentFrame ∧
    (stepCmd s c).colourBlend = s.colourBlend := by
  cases c with
  | draw id => exact ⟨rfl, rfl, rfl, rfl, rfl, rfl⟩
  | setTarget t =>
    simp only [stepCmd, vk2dRendererSetTarget]
    split <;> exact ⟨rfl, rfl, rfl, rfl, rfl, rfl⟩

theorem runBody_frame_fields (cmds : List FrameCmd) :
    ∀ s : VK2DRenderer,
      (runBody s cmds).config = s.config ∧ (runBody s cmds).newConfig = s.newConfig ∧
      (runBody s cmds).resetSwapchain = s.resetSwapchain ∧
      (runBody s cmds).deviceMaxMsaa = s.deviceMaxMsaa ∧
      (runBody s cmds).currentFrame = s.currentFrame ∧
      (runBody s cmds).colourBlend = s.colourBlend := by
  induction cmds with
  | nil => intro s; exact ⟨rfl, rfl, rfl, rfl, rfl, rfl⟩
  | cons c rest ih =>
    intro s
    have hstep := stepCmd_frame_fields s c
    have hrest := ih (stepCmd s c)
    refine ⟨?_, ?_, ?_, ?_, ?_, ?_⟩ <;>
      simp_all [runBody, List.foldl]

theorem applyPendingConfig_trace (s : VK2DRenderer) :
    (applyPendingConfig s).trace = s.trace := by
  simp only [applyPendingConfig]; split <;> rfl

theorem applyPendingConfig_drawOffset (s : VK2DRenderer) :
    (applyPendingConfig s).drawOffset = s.drawOffset := by
  simp only [applyPendingConfig]; split <;> rfl

theorem applyPendingConfig_currentFrame (s : VK2DRenderer) :
    (applyPendingConfig s).currentFrame = s.currentFrame := by
  simp only [applyPendingConfig]; split <;> rfl

theorem pendingRun_recordDraw (s : VK2DRenderer) (id : Nat)
    (h : s.drawOffset ≤ s.draws.length) :
    pendingRun (recordDraw s id) = pendingRun s ++ [id] := by
  simp [pendingRun, recordDraw, List.drop_append_of_le_length h]

/-- Mid-frame invariant preservation: running a frame body from a state with
exactly one open render pass keeps exactly one pass open, keeps the
`drawOffset` cursor inside the accumulator, and the command buffers already
executed plus the still-pending run accumulate exactly the recorded draws, in
order. -/
theorem runBody_inv (cmds : List FrameCmd) :
    ∀ s : VK2DRenderer,
      runDepth 0 s.trace = some 1 →
      s.drawOffset ≤ s.draws.length →
      runDepth 0 (runBody s cmds).trace = some 1 ∧
      (runBody s cmds).drawOffset ≤ (runBody s cmds).draws.length ∧
      executedCmds (runBody s cmds).trace ++ pendingRun (runBody s cmds)
        = executedCmds s.trace ++ pendingRun s ++ recordedDraws cmds := by
  induction cmds with
  | nil =>
    intro s h1 h2
    exact ⟨h1, h2, by simp [runBody, recordedDraws]⟩
  | cons c rest ih =>
    intro s h1 h2
    have hbody : runBody s (c :: rest) = runBody (stepCmd s c) rest := rfl
    cases c with
    | draw id =>
      have hd : stepCmd s (FrameCmd.draw id) = recordDraw s id := rfl
      have h1' : runDepth 0 (recordDraw s id).trace = some 1 := h1
      have h2' : (recordDraw s id).drawOffset ≤ (recordDraw s id).draws.length := by
        simp only [recordDraw, List.length_append, List.length_cons, List.length_nil]
        omega
      obtain ⟨ha, hb, hc⟩ := ih (recordDraw s id) h1' h2'
      refine ⟨by rw [hbody, hd]; exact ha, by rw [hbody, hd]; exact hb, ?_⟩
      rw [hbody, hd, hc, pendingRun_recordDraw s id h2, recordedDraws_cons_draw]
      have htr : executedCmds (recordDraw s id).trace = executedCmds s.trace := rfl
      rw [htr]
      simp [List.append_assoc]
    | setTarget t =>
      by_cases ht : t = s.target
      · have hd : stepCmd s (FrameCmd.setTarget t) = s := by
          simp [stepCmd, vk2dRendererSetTarget, ht]
        obtain ⟨ha, hb, hc⟩ := ih s h1 h2
        refine ⟨by rw [hbody, hd]; exact ha, by rw [hbody, hd]; exact hb, ?_⟩
        rw [hbody, hd, hc, recordedDraws_cons_setTarget]
      · have hd : stepCmd s (FrameCmd.setTarget t) =
            { s with
              trace := s.trace ++
                [RenderEvent.execCmds (pendingRun s), RenderEvent.endPass,
                  RenderEvent.beginPass t]
              drawOffset := s.draws.length
              target := t } := by
          simp [stepCmd, vk2dRendererSetTarget, ht]
        set s2 := stepCmd s (FrameCmd.setTarget t) with hs2
        have h1' : runDepth 0 s2.trace = some 1 := by
          rw [hd]
          simp only [runDepth_append, h1, Option.bind_some]
          simp [runDepth]
        have h2' : s2.drawOffset ≤ s2.draws.length := by
          rw [hd]
        have hpend : pendingRun s2 = [] := by
          rw [hd]
          simp [pendingRun]
        have hexec : executedCmds s2.trace = executedCmds s.trace ++ pendingRun s := by
          rw [hd]
          simp [executedCmds_append, executedCmds]
        obtain ⟨ha, hb, hc⟩ := ih s2 h1' h2'
        refine ⟨by rw [hbody]; exact ha, by rw [hbody]; exact hb, ?_⟩
        rw [hbody]
        rw [hc, hexec, hpend, recordedDraws_cons_setTarget]
        simp

theorem recordedDraws_append (l1 l2 : List FrameCmd) :
    recordedDraws (l1 ++ l2) = recordedDraws l1 ++ recordedDraws l2 := by
  simp [recordedDraws, List.filterMap_append]

/-- One whole frame, run from a state with no open render pass, closes every
pass it opens, executes exactly the draws recorded during it, in order, and
its last event is the presentation. -/
theorem runFrame_spec (s : VK2DRenderer) (cmds : List FrameCmd)
    (h : runDepth 0 s.trace = some 0) :
    runDepth 0 (runFrame s cmds).trace = some 0 ∧
    executedCmds (runFrame s cmds).trace = executedCmds s.trace ++ recordedDraws cmds ∧
    (runFrame s cmds).trace.getLast? = some RenderEvent.present := by
  have hs1tr : (vk2dRendererStartFrame s AcquireResult.success).trace
      = s.trace ++ [RenderEvent.beginPass VK2DTarget.screen] := rfl
  have h1 : runDepth 0 (vk2dRendererStartFrame s AcquireResult.success).trace = some 1 := by
    rw [hs1tr]
    simp only [runDepth_append, h, Option.bind_some]
    simp [runDepth]
  have h2 : (vk2dRendererStartFrame s AcquireResult.success).drawOffset
      ≤ (vk2dRendererStartFrame s AcquireResult.success).draws.length := by
    simp [vk2dRendererStartFrame]
  obtain ⟨ha, hb, hc⟩ := runBody_inv cmds (vk2dRendererStartFrame s AcquireResult.success) h1 h2
  have hmid : midState s cmds = runBody (vk2dRendererStartFrame s AcquireResult.success) cmds :=
    rfl
  rw [← hmid] at ha hb hc
  have hend : (runFrame s cmds).trace
      = (midState s cmds).trace ++
        [RenderEvent.execCmds (pendingRun (midState s cmds)), RenderEvent.endPass,
          RenderEvent.present] := by
    simp [runFrame, vk2dRendererEndFrame, applyPendingConfig_trace]
  have hstr : executedCmds (vk2dRendererStartFrame s AcquireResult.success).trace
      = executedCmds s.trace := by
    rw [hs1tr, executedCmds_append]
    simp [executedCmds]
  have hspend : pendingRun (vk2dRendererStartFrame s AcquireResult.success) = [] := rfl
  refine ⟨?_, ?_, ?_⟩
  · rw [hend]
    simp only [runDepth_append, ha, Option.bind_some]
    simp [runDepth]
  · rw [hend, executedCmds_append]
    have : executedCmds
        [RenderEvent.execCmds (pendingRun (midState s cmds)), RenderEvent.endPass,
          RenderEvent.present] = pendingRun (midState s cmds) := by
      simp [executedCmds]
    rw [this, hc, hstr, hspend]
    simp
  · rw [hend]
    simp

/-- A session of whole frames, run from a state with no open render pass,
keeps every pass matched and executes exactly the draws recorded across all
its frames, in order. -/
theorem runFrames_spec (frames : List (List FrameCmd)) :
    ∀ s : VK2DRenderer, runDepth 0 s.trace = some 0 →
      runDepth 0 (runFrames s frames).trace = some 0 ∧
      executedCmds (runFrames s frames).trace
        = executedCmds s.trace ++ recordedDraws frames.flatten := by
  induction frames with
  | nil =>
    intro s h
    exact ⟨h, by simp [runFrames, recordedDraws]⟩
  | cons cmds rest ih =>
    intro s h
    have hstep := runFrame_spec s cmds h
    have hrest := ih (runFrame s cmds) hstep.1
    have hun : runFrames s (cmds :: rest) = runFrames (runFrame s cmds) rest := rfl
    refine ⟨by rw [hun]; exact hrest.1, ?_⟩
    rw [hun, hrest.2, hstep.2.1]
    simp [recordedDraws_append, List.append_assoc]

/-- C1: For any sequence of startFrame/endFrame pairs with any number of
setTarget calls interleaved, every render pass opened during a frame is
matched by exactly one terminating end before presentation (the trace obeys
the pass discipline, ending with no pass open), and the secondary command
buffers executed across the session are exactly the ones recorded, each
exactly once, in original recording order. -/
theorem frame_protocol_balanced_and_complete (deviceMaxMsaa : Nat)
    (config : VK2DRendererConfig) (frames : List (List FrameCmd)) :
    runDepth 0 (runFrames (vk2dRendererInit deviceMaxMsaa config).2 frames).trace = some 0 ∧
    executedCmds (runFrames (vk2dRendererInit deviceMaxMsaa config).2 frames).trace
      = recordedDraws frames.flatten := by
  have h0 : runDepth 0 (vk2dRendererInit deviceMaxMsaa config).2.trace = some 0 := rfl
  have h := runFrames_spec frames (vk2dRendererInit deviceMaxMsaa config).2 h0
  refine ⟨h.1, ?_⟩
  rw [h.2]
  rfl

/-! ## Frame-synchronization step ordering (startFrame internals) -/

/-- One synchronization step performed inside `vk2dRendererStartFrame`. -/
inductive SyncStep where
  | waitFence : Nat → SyncStep
  | acquireImage : SyncStep
  | resetPool : Nat → SyncStep
  | allocPrimary : SyncStep
  | beginScreenPass : SyncStep
deriving DecidableEq

/-- Modelled from the spec: the step ordering of `vk2dRendererStartFrame` for
frame slot f = currentFrame mod framesInFlight (spec §4.2; Renderer.c is not
under src/): (1) block until inFlightFences[f] is signaled, (2) acquire the
next swapchain image, (3) reset slot f's command pool, (4) allocate a fresh
primary command buffer, (5) begin the screen render pass.  The header doc
comment (Renderer.h lines 20–21) confirms steps 3–5. -/
def startFrameSyncSteps (currentFrame framesInFlight : Nat) : List SyncStep :=
  [SyncStep.waitFence (currentFrame % framesInFlight),
   SyncStep.acquireImage,
   SyncStep.resetPool (currentFrame % framesInFlight),
   SyncStep.allocPrimary,
   SyncStep.beginScreenPass]

/-- C2: For every frame slot f = currentFrame mod framesInFlight, the wait
observing inFlightFences[f] signaled occurs in startFrame's step ordering, the
reset of slot f's command pool occurs too, and the wait strictly precedes the
reset — the pool is never reset (nor its slot's semaphores reused) while that
slot's previous GPU work is outstanding. -/
theorem fence_wait_precedes_pool_reset (currentFrame framesInFlight : Nat) :
    SyncStep.waitFence (currentFrame % framesInFlight)
        ∈ startFrameSyncSteps currentFrame framesInFlight ∧
    SyncStep.resetPool (currentFrame % framesInFlight)
        ∈ startFrameSyncSteps currentFrame framesInFlight ∧
    (startFrameSyncSteps currentFrame framesInFlight).findIdx
        (fun st => st = SyncStep.waitFence (currentFrame % framesInFlight)) <
      (startFrameSyncSteps currentFrame framesInFlight).findIdx
        (fun st => st = SyncStep.resetPool (currentFrame % framesInFlight)) := by
  refine ⟨by simp [startFrameSyncSteps], by simp [startFrameSyncSteps], ?_⟩
  have h1 : (startFrameSyncSteps currentFrame framesInFlight).findIdx
      (fun st => st = SyncStep.waitFence (currentFrame % framesInFlight)) = 0 := by
    simp [startFrameSyncSteps, List.findIdx, List.findIdx.go]
  have h2 : (startFrameSyncSteps currentFrame framesInFlight).findIdx
      (fun st => st = SyncStep.resetPool (currentFrame % framesInFlight)) = 2 := by
    simp [startFrameSyncSteps, List.findIdx, List.findIdx.go]
  omega

/-! ## Configuration deferral and capability fallback -/

theorem getConfig_endFrame (s : VK2DRenderer) :
    vk2dRendererGetConfig (vk2dRendererEndFrame s)
      = if s.resetSwapchain then effectiveConfig s.deviceMaxMsaa s.newConfig
        else s.config := by
  simp only [vk2dRendererEndFrame, applyPendingConfig, vk2dRendererGetConfig]
  split <;> simp_all

/-- C3: setConfig never mutates the active configuration synchronously:
getConfig still returns the previously active configuration right after
setConfig and through any further frame-body activity, until the
swapchain-reset cycle at the end of the frame applies the pending value, after
which getConfig returns the new (effective) configuration; repeated setConfig
calls before the reset overwrite the pending value, last-write-wins. -/
theorem setConfig_deferred_until_reset (s : VK2DRenderer)
    (c1 c2 : VK2DRendererConfig) (cmds : List FrameCmd) :
    vk2dRendererGetConfig (vk2dRendererSetConfig s c1) = vk2dRendererGetConfig s ∧
    vk2dRendererGetConfig (runBody (vk2dRendererSetConfig s c1) cmds)
      = vk2dRendererGetConfig s ∧
    vk2dRendererGetConfig (vk2dRendererEndFrame (runBody (vk2dRendererSetConfig s c1) cmds))
      = effectiveConfig s.deviceMaxMsaa c1 ∧
    vk2dRendererSetConfig (vk2dRendererSetConfig s c1) c2 = vk2dRendererSetConfig s c2 := by
  obtain ⟨hcfg, hnew, hreset, hdev, _, _⟩ :=
    runBody_frame_fields cmds (vk2dRendererSetConfig s c1)
  refine ⟨rfl, ?_, ?_, rfl⟩
  · simpa [vk2dRendererGetConfig] using hcfg
  · rw [getConfig_endFrame, hreset, hnew, hdev]
    rfl

/-- C4: An MSAA request above the device maximum is not an error: init
succeeds (non-negative status) and getConfig afterwards reports the nearest
supported level, the device maximum; in general the effective configuration
only uses MSAA values the device supports (at most the reported maximum), and
an unsupported request never fails. -/
theorem init_msaa_capability_fallback (deviceMaxMsaa : Nat) (config : VK2DRendererConfig)
    (h : deviceMaxMsaa < config.msaa) :
    0 ≤ (vk2dRendererInit deviceMaxMsaa config).1 ∧
    (vk2dRendererGetConfig (vk2dRendererInit deviceMaxMsaa config).2).msaa = deviceMaxMsaa ∧
    ∀ (d : Nat) (c : VK2DRendererConfig),
      0 ≤ (vk2dRendererInit d c).1 ∧
      (vk2dRendererGetConfig (vk2dRendererInit d c).2).msaa ≤ d := by
  refine ⟨le_refl 0, ?_, ?_⟩
  · simp only [vk2dRendererInit, initialRenderer, vk2dRendererGetConfig, effectiveConfig]
    omega
  · intro d c
    refine ⟨le_refl 0, ?_⟩
    simp only [vk2dRendererInit, initialRenderer, vk2dRendererGetConfig, effectiveConfig]
    omega

/-! ## Target switching -/

/-- C5: Calling setTarget with the currently active target is a no-op: the
whole renderer state — in particular the trace (no render pass ended or begun)
and drawOffset — is left exactly as it was. -/
theorem setTarget_same_target_noop (s : VK2DRenderer) (target : VK2DTarget)
    (h : target = s.target) :
    vk2dRendererSetTarget s target = s := by
  simp [vk2dRendererSetTarget, h]

theorem runBody_offset_le (cmds : List FrameCmd) :
    ∀ s : VK2DRenderer, s.drawOffset ≤ s.draws.length →
      (runBody s cmds).drawOffset ≤ (runBody s cmds).draws.length := by
  induction cmds with
  | nil => intro s h; exact h
  | cons c rest ih =>
    intro s h
    have hbody : runBody s (c :: rest) = runBody (stepCmd s c) rest := rfl
    rw [hbody]
    refine ih (stepCmd s c) ?_
    cases c with
    | draw id =>
      simp only [stepCmd, recordDraw, List.length_append, List.length_cons, List.length_nil]
      omega
    | setTarget t =>
      simp only [stepCmd, vk2dRendererSetTarget]
      split
      · exact h
      · exact le_refl _

theorem midState_offset_le (s : VK2DRenderer) (cmds : List FrameCmd) :
    (midState s cmds).drawOffset ≤ (midState s cmds).draws.length :=
  runBody_offset_le cmds (vk2dRendererStartFrame s AcquireResult.success) (Nat.le_refl 0)

/-- C6: Within a frame, drawOffset only moves forward: startFrame sets it to
0; from any reachable mid-frame state, a recorded draw leaves it unchanged and
an effective target switch advances it to the draw accumulator's current
length (so no already-flushed secondary command buffer is re-executed), hence
every step is non-decreasing; and endFrame leaves it unchanged. -/
theorem drawOffset_monotone (s : VK2DRenderer) (cmds : List FrameCmd)
    (c : FrameCmd) (t : VK2DTarget) :
    (vk2dRendererStartFrame s AcquireResult.success).drawOffset = 0 ∧
    (midState s cmds).drawOffset ≤ (stepCmd (midState s cmds) c).drawOffset ∧
    (t ≠ (midState s cmds).target →
      (vk2dRendererSetTarget (midState s cmds) t).drawOffset
        = (midState s cmds).draws.length) ∧
    (vk2dRendererEndFrame (midState s cmds)).drawOffset = (midState s cmds).drawOffset := by
  refine ⟨rfl, ?_, ?_, ?_⟩
  · cases c with
    | draw id => exact le_refl _
    | setTarget u =>
      simp only [stepCmd, vk2dRendererSetTarget]
      split
      · exact le_refl _
      · exact midState_offset_le s cmds
  · intro ht
    simp [vk2dRendererSetTarget, ht]
  · simp [vk2dRendererEndFrame, applyPendingConfig_drawOffset]

/-- C7: If the target is switched to a texture and never switched back to the
screen before endFrame, the engine still ends the open render pass and
presents correctly: the trace obeys the render-pass discipline and closes
every pass, its last event is the presentation, and every draw recorded during
the frame (including those aimed at the texture) is executed exactly once, in
order — no crash or failure results from this caller misuse. -/
theorem endFrame_with_unrestored_texture_target (s : VK2DRenderer) (cmds : List FrameCmd)
    (h0 : runDepth 0 s.trace = some 0)
    (_h : (midState s cmds).target ≠ VK2DTarget.screen) :
    runDepth 0 (runFrame s cmds).trace = some 0 ∧
    (runFrame s cmds).trace.getLast? = some RenderEvent.present ∧
    executedCmds (runFrame s cmds).trace = executedCmds s.trace ++ recordedDraws cmds := by
  have hspec := runFrame_spec s cmds h0
  exact ⟨hspec.1, hspec.2.2, hspec.2.1⟩

/-! ## Frame counter -/

theorem endFrame_currentFrame (s : VK2DRenderer) :
    (vk2dRendererEndFrame s).currentFrame = s.currentFrame := by
  simp [vk2dRendererEndFrame, applyPendingConfig_currentFrame]

theorem runFrame_currentFrame (s : VK2DRenderer) (cmds : List FrameCmd) :
    (runFrame s cmds).currentFrame = s.currentFrame + 1 := by
  have hmid := (runBody_frame_fields cmds (vk2dRendererStartFrame s AcquireResult.success)).2.2.2.2.1
  have : (runFrame s cmds).currentFrame = (midState s cmds).currentFrame :=
    endFrame_currentFrame (midState s cmds)
  rw [this]
  exact hmid

/-- A frame driven by an acquisition outcome: on success the whole
startFrame/body/endFrame cycle runs; on an out-of-date or failed acquisition
the frame's drawing is aborted (spec §4.2: StartFrame becomes a no-op
draw-wise for that frame). -/
def runFrameA (s : VK2DRenderer) (acquire : AcquireResult) (cmds : List FrameCmd) :
    VK2DRenderer :=
  match acquire with
  | AcquireResult.success => runFrame s cmds
  | _ => vk2dRendererStartFrame s acquire

/-- A session of frames, each with its own acquisition outcome. -/
def runSession (s : VK2DRenderer) (frames : List (AcquireResult × List FrameCmd)) :
    VK2DRenderer :=
  frames.foldl (fun st fr => runFrameA st fr.1 fr.2) s

theorem runFrameA_currentFrame (s : VK2DRenderer) (acquire : AcquireResult)
    (cmds : List FrameCmd) :
    (runFrameA s acquire cmds).currentFrame = s.currentFrame + 1 := by
  cases acquire with
  | success => exact runFrame_currentFrame s cmds
  | outOfDate => rfl
  | failure => rfl

/-- C8: currentFrame is incremented exactly once by every frame call — for
every acquisition outcome, including skipped/failed acquisitions — so after
any session of frames the counter equals the initial value plus the number of
frames, making slot rotation (currentFrame mod framesInFlight)
deterministic. -/
theorem currentFrame_increments_unconditionally (s : VK2DRenderer)
    (acquire : AcquireResult) (cmds : List FrameCmd)
    (frames : List (AcquireResult × List FrameCmd)) :
    (vk2dRendererStartFrame s acquire).currentFrame = s.currentFrame + 1 ∧
    (runFrameA s acquire cmds).currentFrame = s.currentFrame + 1 ∧
    (runSession s frames).currentFrame = s.currentFrame + frames.length := by
  refine ⟨?_, runFrameA_currentFrame s acquire cmds, ?_⟩
  · cases acquire <;> rfl
  · induction frames generalizing s with
    | nil => rfl
    | cons fr rest ih =>
      have hun : runSession s (fr :: rest) = runSession (runFrameA s fr.1 fr.2) rest := rfl
      rw [hun, ih, runFrameA_currentFrame]
      simp [List.length_cons]
      omega

/-! ## Colour modifier -/

/-- C10: For every RGBA vector, setColourMod then getColourMod yields the same
vector back, and setColourMod changes no renderer state other than the
colour-blend modifier. -/
theorem colourMod_roundtrip (s : VK2DRenderer) (mod : Vec4) :
    vk2dRendererGetColourMod (vk2dRendererSetColourMod s mod) = mod ∧
    (vk2dRendererSetColourMod s mod).config = s.config ∧
    (vk2dRendererSetColourMod s mod).newConfig = s.newConfig ∧
    (vk2dRendererSetColourMod s mod).resetSwapchain = s.resetSwapchain ∧
    (vk2dRendererSetColourMod s mod).deviceMaxMsaa = s.deviceMaxMsaa ∧
    (vk2dRendererSetColourMod s mod).currentFrame = s.currentFrame ∧
    (vk2dRendererSetColourMod s mod).draws = s.draws ∧
    (vk2dRendererSetColourMod s mod).drawOffset = s.drawOffset ∧
    (vk2dRendererSetColourMod s mod).target = s.target ∧
    (vk2dRendererSetColourMod s mod).trace = s.trace :=
  ⟨rfl, rfl, rfl, rfl, rfl, rfl, rfl, rfl, rfl, rfl⟩

/-! ## Per-draw bind elision (Renderer.h lines 118–121) -/

/-- The bind-elision cache (Renderer.h lines 118–121): the descriptor-set
identity (`prevSetHash`), vertex buffer (`prevVBO`) and pipeline handle
(`prevPipe`) the renderer believes are currently bound; `none` models the
invalidated/unknown state. -/
structure BindCache where
  prevSetHash : Option Nat
  prevVBO : Option Nat
  prevPipe : Option Nat
deriving DecidableEq

/-- One step of the per-draw binding stream: a draw needing a descriptor set,
vertex buffer and pipeline bound, or a render-target switch.  A target switch
implicitly invalidates the GPU-side binding state, since render-pass switches
invalidate pipeline compatibility (spec §4.4). -/
inductive BindStep where
  | draw : Nat → Nat → Nat → BindStep
  | switchTarget : BindStep
deriving DecidableEq

/-- State of a binding run: the renderer's elision cache, the actual GPU-side
bound triple (`none` right after a pass switch, before any bind), and the
observable record — for each draw, in order, what the GPU had bound when that
draw executed. -/
structure BindRun where
  cache : BindCache
  gpu : Option (Nat × Nat × Nat)
  out : List (Option (Nat × Nat × Nat))
deriving DecidableEq

/-- Modelled from the spec (§4.4; Renderer.c is not under src/): the elision
step.  A draw whose (descriptor set, vertex buffer, pipeline) triple matches
all three cached values skips the rebind; otherwise all three are bound and
all three cache fields updated.  A target switch invalidates all three cached
values, never only the one that changed. -/
def elideStep (st : BindRun) : BindStep → BindRun
  | BindStep.draw sh vb pp =>
      if st.cache.prevSetHash = some sh ∧ st.cache.prevVBO = some vb ∧
          st.cache.prevPipe = some pp then
        { st with out := st.out ++ [st.gpu] }
      else
        { cache := ⟨some sh, some vb, some pp⟩
          gpu := some (sh, vb, pp)
          out := st.out ++ [some (sh, vb, pp)] }
  | BindStep.switchTarget =>
      { st with cache := ⟨none, none, none⟩, gpu := none }

/-- The naive always-rebind reference version: every draw binds its full
triple, no elision. -/
def naiveStep (st : BindRun) : BindStep → BindRun
  | BindStep.draw sh vb pp =>
      { cache := ⟨some sh, some vb, some pp⟩
        gpu := some (sh, vb, pp)
        out := st.out ++ [some (sh, vb, pp)] }
  | BindStep.switchTarget =>
      { st with cache := ⟨none, none, none⟩, gpu := none }

/-- The initial binding state: nothing cached, nothing bound. -/
def initialBindRun : BindRun :=
  ⟨⟨none, none, none⟩, none, []⟩

/-- A whole draw sequence under bind elision. -/
def runElide (steps : List BindStep) : BindRun :=
  steps.foldl elideStep initialBindRun

/-- A whole draw sequence under naive always-rebind. -/
def runNaive (steps : List BindStep) : BindRun :=
  steps.foldl naiveStep initialBindRun

/-- The triple each draw requests, in order — what a correct binder must have
bound on the GPU at the moment each draw executes. -/
def requestedBinds (steps : List BindStep) : List (Option (Nat × Nat × Nat)) :=
  steps.filterMap fun st =>
    match st with
    | BindStep.draw sh vb pp => some (some (sh, vb, pp))
    | BindStep.switchTarget => none

/-- The cache contents that faithfully describe GPU bindings `g`. -/
def cacheOfGpu : Option (Nat × Nat × Nat) → BindCache
  | none => ⟨none, none, none⟩
  | some (sh, vb, pp) => ⟨some sh, some vb, some pp⟩

theorem elide_run_spec (steps : List BindStep) :
    ∀ st : BindRun, st.cache = cacheOfGpu st.gpu →
      (steps.foldl elideStep st).out = st.out ++ requestedBinds steps ∧
      (steps.foldl elideStep st).cache = cacheOfGpu (steps.foldl elideStep st).gpu := by
  induction steps with
  | nil =>
    intro st h
    exact ⟨by simp [requestedBinds], h⟩
  | cons step rest ih =>
    intro st h
    have hfold : (step :: rest).foldl elideStep st = rest.foldl elideStep (elideStep st step) :=
      rfl
    cases step with
    | draw sh vb pp =>
      by_cases hm : st.cache.prevSetHash = some sh ∧ st.cache.prevVBO = some vb ∧
          st.cache.prevPipe = some pp
      · have hg : st.gpu = some (sh, vb, pp) := by
          cases hgpu : st.gpu with
          | none =>
            rw [hgpu] at h
            rw [h] at hm
            simp [cacheOfGpu] at hm
          | some trip =>
            obtain ⟨a, bv, cp⟩ := trip
            rw [hgpu] at h
            rw [h] at hm
            simp only [cacheOfGpu, Option.some.injEq] at hm
            rw [hm.1, hm.2.1, hm.2.2]
        have hstep : elideStep st (BindStep.draw sh vb pp)
            = { st with out := st.out ++ [st.gpu] } := by
          simp [elideStep, hm]
        obtain ⟨ho, hcinv⟩ := ih (elideStep st (BindStep.draw sh vb pp)) (by rw [hstep]; exact h)
        refine ⟨?_, by rw [hfold]; exact hcinv⟩
        rw [hfold, ho, hstep, hg]
        simp [requestedBinds]
      · have hstep : elideStep st (BindStep.draw sh vb pp)
            = { cache := ⟨some sh, some vb, some pp⟩
                gpu := some (sh, vb, pp)
                out := st.out ++ [some (sh, vb, pp)] } := by
          simp only [elideStep]
          rw [if_neg hm]
        obtain ⟨ho, hcinv⟩ :=
          ih (elideStep st (BindStep.draw sh vb pp)) (by rw [hstep]; rfl)
        refine ⟨?_, by rw [hfold]; exact hcinv⟩
        rw [hfold, ho, hstep]
        simp [requestedBinds]
    | switchTarget =>
      have hstep : elideStep st BindStep.switchTarget
          = { st with cache := ⟨none, none, none⟩, gpu := none } := rfl
      obtain ⟨ho, hcinv⟩ := ih (elideStep st BindStep.switchTarget) (by rw [hstep]; rfl)
      refine ⟨?_, by rw [hfold]; exact hcinv⟩
      rw [hfold, ho, hstep]
      simp [requestedBinds]

theorem naive_run_spec (steps : List BindStep) :
    ∀ st : BindRun, (steps.foldl naiveStep st).out = st.out ++ requestedBinds steps := by
  induction steps with
  | nil => intro st; simp [requestedBinds]
  | cons step rest ih =>
    intro st
    have hfold : (step :: rest).foldl naiveStep st = rest.foldl naiveStep (naiveStep st step) :=
      rfl
    cases step with
    | draw sh vb pp =>
      rw [hfold, ih]
      simp [naiveStep, requestedBinds]
    | switchTarget =>
      rw [hfold, ih]
      simp [naiveStep, requestedBinds]

/-- C9: The per-draw bind-elision cache is a pure optimization: for every draw
sequence, the per-draw GPU-side bound state with elision enabled equals the
output of the naive always-rebind version — both equal the requested triples,
so elision never causes a stale binding; this rests on every target switch
invalidating all three cached values, never only the one that changed. -/
theorem bind_elision_is_pure_optimization (steps : List BindStep) :
    (runElide steps).out = (runNaive steps).out ∧
    (runNaive steps).out = requestedBinds steps := by
  have he := elide_run_spec steps initialBindRun rfl
  have hn := naive_run_spec steps initialBindRun
  constructor
  · rw [runElide, runNaive, he.1, hn]
  · rw [runNaive, hn]
    rfl

/-! ## Concrete instantiations -/

/-- A small concrete configuration: 64x MSAA requested. -/
def sampleConfig : VK2DRendererConfig :=
  ⟨0, 0, 64, 2⟩

/-- A small concrete renderer: initialized on a device reporting 8x MSAA. -/
def sampleRenderer : VK2DRenderer :=
  (vk2dRendererInit 8 sampleConfig).2

/-- Witness for C4 at a device maximum of 8x and a request of 64x. -/
theorem init_msaa_capability_fallback_witness :
    8 < sampleConfig.msaa ∧
    0 ≤ (vk2dRendererInit 8 sampleConfig).1 ∧
    (vk2dRendererGetConfig (vk2dRendererInit 8 sampleConfig).2).msaa = 8 :=
  ⟨by decide, (init_msaa_capability_fallback 8 sampleConfig (by decide)).1,
    (init_msaa_capability_fallback 8 sampleConfig (by decide)).2.1⟩

/-- Witness for C5: switching to the already-active screen target leaves the
concrete renderer state untouched. -/
theorem setTarget_same_target_noop_witness :
    VK2DTarget.screen = sampleRenderer.target ∧
    vk2dRendererSetTarget sampleRenderer VK2DTarget.screen = sampleRenderer :=
  ⟨by decide, setTarget_same_target_noop sampleRenderer VK2DTarget.screen (by decide)⟩

/-- Witness for C6: an effective target switch from a concrete mid-frame state
advances drawOffset to the accumulator length. -/
theorem drawOffset_monotone_witness :
    VK2DTarget.texture 0 ≠ (midState sampleRenderer []).target ∧
    (vk2dRendererSetTarget (midState sampleRenderer []) (VK2DTarget.texture 0)).drawOffset
      = (midState sampleRenderer []).draws.length :=
  ⟨by decide,
    (drawOffset_monotone sampleRenderer [] (FrameCmd.draw 0) (VK2DTarget.texture 0)).2.2.1
      (by decide)⟩

/-- Witness for C7: a concrete frame that switches to a texture and never
switches back still closes its passes, presents last, and executes its
recorded draw. -/
theorem endFrame_with_unrestored_texture_target_witness :
    runDepth 0 sampleRenderer.trace = some 0 ∧
    (midState sampleRenderer
        [FrameCmd.setTarget (VK2DTarget.texture 0), FrameCmd.draw 1]).target
      ≠ VK2DTarget.screen ∧
    (runDepth 0 (runFrame sampleRenderer
        [FrameCmd.setTarget (VK2DTarget.texture 0), FrameCmd.draw 1]).trace = some 0 ∧
      (runFrame sampleRenderer
          [FrameCmd.setTarget (VK2DTarget.texture 0), FrameCmd.draw 1]).trace.getLast?
        = some RenderEvent.present ∧
      executedCmds (runFrame sampleRenderer
          [FrameCmd.setTarget (VK2DTarget.texture 0), FrameCmd.draw 1]).trace
        = executedCmds sampleRenderer.trace ++
            recordedDraws [FrameCmd.setTarget (VK2DTarget.texture 0), FrameCmd.draw 1]) :=
  ⟨by decide, by decide,
    endFrame_with_unrestored_texture_target sampleRenderer
      [FrameCmd.setTarget (VK2DTarget.texture 0), FrameCmd.draw 1] (by decide) (by decide)⟩

end VK2D
